import Mathlib

/-!
Shallow embedding of the unit-test-generator pipeline from `src/main.go`.

The pure computations of the program (output validation, gcov report
parsing, coverage thresholding, output-path derivation, and the
bounded retry structure of the generation loop) are translated into
executable Lean definitions.  External effects (the Ollama backend,
the compiler, the test binary, gcov, the filesystem) are modelled by
environment records carrying the outcome of each external call, and
the program's control flow over those outcomes is translated directly.

Decimal percentages are modelled as exact rationals; the Go program
stores them in a float64, which represents the concrete boundary
values used here (79.99 vs 80.00 compared against 80.0) with the same
ordering behaviour.
-/

namespace UnitTestGenerator

/-- Go strings.Contains over lists of characters: `pat` occurs as a
contiguous substring of `s`. -/
def listContainsSub (pat s : List Char) : Bool :=
  s.tails.any fun t => pat.isPrefixOf t

/-- Go strings.Contains. -/
def strContains (s sub : String) : Bool :=
  listContainsSub sub.data s.data

/-- Go strings.HasPrefix. -/
def strStartsWith (s p : String) : Bool :=
  p.data.isPrefixOf s.data

/-- Go strings.HasSuffix. -/
def strEndsWith (s p : String) : Bool :=
  p.data.reverse.isPrefixOf s.data.reverse

/-- Go strings.TrimPrefix: drop `p` from the front of `s` when present. -/
def trimLeading (s p : String) : String :=
  if strStartsWith s p then ⟨s.data.drop p.data.length⟩ else s

/-- Go strings.TrimSuffix: drop `p` from the end of `s` when present. -/
def trimTrailing (s p : String) : String :=
  if strEndsWith s p then ⟨s.data.take (s.data.length - p.data.length)⟩ else s

/-- Go unicode.IsSpace restricted to the Latin-1 space characters; the
generated strings contain no exotic Unicode space characters. -/
def goIsSpace (c : Char) : Bool :=
  c = ' ' || c = '\t' || c = '\n' || c = '\x0b' || c = '\x0c' || c = '\r' ||
  c = '\x85' || c = '\xa0'

/-- Go strings.TrimSpace. -/
def trimSpace (s : String) : String :=
  ⟨((s.data.dropWhile goIsSpace).reverse.dropWhile goIsSpace).reverse⟩

/-- Normalization applied to a raw generation response in
`generateUnitTests` (main.go lines 122-124): strip a leading
code-fence marker, a trailing fence marker, and surrounding space. -/
def normalizeOutput (raw : String) : String :=
  trimSpace (trimTrailing (trimLeading raw "```cpp\n") "\n```")

/-- Character membership in the whitespace class of Go's regexp (the
RE2 Perl class used by the incomplete-TEST-macro pattern). -/
def isRe2Space (c : Char) : Bool :=
  c = '\t' || c = '\n' || c = '\x0c' || c = '\r' || c = ' '

/-- One anchored match attempt for the Go regexp
`TEST\([^)]+\)\s*\x7b[^\x7d]*$` starting at the head of `t` and
required to run to the end of the text (the `$` anchor). -/
def incompleteFrom (t : List Char) : Bool :=
  if "TEST(".data.isPrefixOf t then
    let rest := t.drop 5
    let inner := rest.takeWhile fun c => c ≠ ')'
    if inner.isEmpty then false
    else
      match rest.drop inner.length with
      | ')' :: after =>
        match after.dropWhile isRe2Space with
        | '\x7b' :: body => body.all fun c => c ≠ '\x7d'
        | _ => false
      | _ => false
  else false

/-- Go `re.MatchString` for the incomplete-TEST-macro pattern: some
suffix of the text matches the anchored pattern. -/
def hasIncompleteTEST (s : List Char) : Bool :=
  s.tails.any incompleteFrom

/-- Fuel-indexed scanner for non-overlapping occurrences. -/
def countOccAux (pat : List Char) : Nat → List Char → Nat
  | 0, _ => 0
  | _ + 1, [] => 0
  | fuel + 1, c :: rest =>
    if pat.isPrefixOf (c :: rest) then
      1 + countOccAux pat fuel (rest.drop (pat.length - 1))
    else countOccAux pat fuel rest

/-- Go `regexp.FindAllString` count for a literal pattern:
non-overlapping left-to-right occurrences. -/
def countOcc (pat s : List Char) : Nat :=
  countOccAux pat s.length s

/-- The brace-balance counter of `generateUnitTests`
(main.go lines 178-185). -/
def braceDelta (s : List Char) : Int :=
  s.foldl (fun acc c => if c = '\x7b' then acc + 1 else if c = '\x7d' then acc - 1 else acc) 0

/-- The fixed list of methods the generated tests must exercise
(main.go line 64). -/
def methods : List String := ["add", "subtract"]

/-- Reason codes for the validator's rejections, one per logged
validation failure of `generateUnitTests` (main.go lines 131-189),
in source order. -/
inductive Reason where
  | tooShort
  | missingGtest
  | missingCmath
  | missingStdexcept
  | missingExampleH
  | missingTEST
  | incompleteTEST
  | wrongTestCount
  | missingSymbol
  | unbalancedBraces
deriving DecidableEq

/-- The validation chain of `generateUnitTests` (main.go lines
131-189), translated check by check in source order; `none` means the
output is accepted. -/
def validateOutput (output : String) : Option Reason :=
  if output.utf8ByteSize < 250 then some .tooShort
  else if !(strContains output "#include <gtest/gtest.h>") then some .missingGtest
  else if !(strContains output "#include <cmath>") then some .missingCmath
  else if !(strContains output "#include <stdexcept>") then some .missingStdexcept
  else if !(strContains output "#include \"example.h\"") then some .missingExampleH
  else if !(strContains output "TEST") then some .missingTEST
  else if hasIncompleteTEST output.data then some .incompleteTEST
  else if countOcc "TEST(CalculatorTest,".data output.data ≠ 4 then some .wrongTestCount
  else if 0 < (methods.filter fun m => !(strContains output (m ++ "("))).length then
    some .missingSymbol
  else if braceDelta output.data ≠ 0 then some .unbalancedBraces
  else none

/-- The validator's rules as an ordered pass/fail list, pairing each
predicate (true = pass) with its reason code, in evaluation order. -/
def ruleList (output : String) : List (Bool × Reason) :=
  [ (!decide (output.utf8ByteSize < 250), .tooShort),
    (strContains output "#include <gtest/gtest.h>", .missingGtest),
    (strContains output "#include <cmath>", .missingCmath),
    (strContains output "#include <stdexcept>", .missingStdexcept),
    (strContains output "#include \"example.h\"", .missingExampleH),
    (strContains output "TEST", .missingTEST),
    (!hasIncompleteTEST output.data, .incompleteTEST),
    (decide (countOcc "TEST(CalculatorTest,".data output.data = 4), .wrongTestCount),
    (!decide (0 < (methods.filter fun m => !(strContains output (m ++ "("))).length),
      .missingSymbol),
    (!decide (braceDelta output.data ≠ 0), .unbalancedBraces) ]

/-- First failing rule of an ordered rule list. -/
def firstFail : List (Bool × Reason) → Option Reason
  | [] => none
  | p :: rest => if p.1 then firstFail rest else some p.2

/-- Digit-string value, as accumulated left to right. -/
def digitsToNat (s : List Char) : Nat :=
  s.foldl (fun acc c => acc * 10 + (c.toNat - '0'.toNat)) 0

/-- Go strconv.ParseFloat on the strings the gcov regexp can capture
(runs of digits and dots), with the decimal value represented
exactly as a rational: defined for at most one dot and at least one
digit, `none` otherwise (ParseFloat errors there). -/
def parseDecimal (s : List Char) : Option ℚ :=
  if s = [] then none
  else if !(s.all fun c => c.isDigit || c = '.') then none
  else if 1 < (s.filter fun c => c = '.').length then none
  else if (s.filter fun c => c.isDigit) = [] then none
  else
    let intPart := s.takeWhile fun c => c ≠ '.'
    let fracPart := s.drop (intPart.length + 1)
    some (mkRat (digitsToNat intPart * 10 ^ fracPart.length + digitsToNat fracPart)
      (10 ^ fracPart.length))

/-- One anchored match attempt, at the head of `t`, for the Go regexp
`Lines executed:([\d.]+)% of (\d+)` of `runTestsAndCoverage`
(main.go line 276), returning the two capture groups.  Both
character classes are greedy and followed by a character outside the
class, so the group extents are forced. -/
def matchGcovAt (t : List Char) : Option (String × String) :=
  if "Lines executed:".data.isPrefixOf t then
    let rest := t.drop "Lines executed:".data.length
    let g1 := rest.takeWhile fun c => c.isDigit || c = '.'
    if g1.isEmpty then none
    else
      let rest2 := rest.drop g1.length
      if "% of ".data.isPrefixOf rest2 then
        let g2 := (rest2.drop 5).takeWhile fun c => c.isDigit
        if g2.isEmpty then none else some (⟨g1⟩, ⟨g2⟩)
      else none
  else none

/-- Go `re.FindStringSubmatch` for the gcov pattern: the leftmost
match's capture groups, or `none` when the pattern is absent. -/
def parseGcovCapture (out : String) : Option (String × String) :=
  out.data.tails.findSome? matchGcovAt

/-- Stage-tagged failures of `runTestsAndCoverage`, one per distinct
error return of the function (main.go lines 199-293). -/
inductive RunErr where
  | mkTempFailed
  | writeTestFailed
  | copySourceFailed
  | copyHeaderFailed
  | compileFailed
  | testsFailed
  | gcovFailed
  | parseFailed
  | parseFloatFailed
  | belowThreshold (c : ℚ)
deriving DecidableEq

/-- The tail of `runTestsAndCoverage` after a successful test run
(main.go lines 266-292): run gcov, parse its report, and enforce the
80% threshold.  Returns the same (passed, coverage, error) triple as
the Go function. -/
def coverageGate (gcovExit : Nat) (gcovOutput : String) : Bool × ℚ × Option RunErr :=
  if gcovExit ≠ 0 then (true, 0, some .gcovFailed)
  else
    match parseGcovCapture gcovOutput with
    | none => (true, 0, some .parseFailed)
    | some caps =>
      match parseDecimal caps.1.data with
      | none => (true, 0, some .parseFloatFailed)
      | some coverage =>
        if coverage < 80 then (false, coverage, some (.belowThreshold coverage))
        else (true, coverage, none)

lemma firstFail_eq_none (l : List (Bool × Reason)) :
    firstFail l = none ↔ ∀ p ∈ l, p.1 = true := by
  induction l with
  | nil => simp [firstFail]
  | cons p rest ih => cases hp : p.1 <;> simp [firstFail, hp, ih]

lemma braceDelta_foldl (s : List Char) (acc : Int) :
    s.foldl (fun a c => if c = '\x7b' then a + 1 else if c = '\x7d' then a - 1 else a) acc
      = acc + ((s.count '\x7b' : Int) - (s.count '\x7d' : Int)) := by
  induction s generalizing acc with
  | nil => simp
  | cons a t ih =>
    simp only [List.foldl_cons, ih, List.count_cons]
    by_cases h1 : a = '\x7b'
    · subst h1; simp; ring
    · by_cases h2 : a = '\x7d'
      · subst h2; simp [h1]; ring
      · simp [h1, h2]

lemma braceDelta_count (s : List Char) :
    braceDelta s = (s.count '\x7b' : Int) - (s.count '\x7d' : Int) := by
  simpa using braceDelta_foldl s 0

lemma validateOutput_eq_firstFail (output : String) :
    validateOutput output = firstFail (ruleList output) := by
  by_cases h1 : output.utf8ByteSize < 250
  · simp [validateOutput, ruleList, firstFail, h1]
  · cases h2 : strContains output "#include <gtest/gtest.h>"
    · simp [validateOutput, ruleList, firstFail, h1, h2]
    · cases h3 : strContains output "#include <cmath>"
      · simp [validateOutput, ruleList, firstFail, h1, h2, h3]
      · cases h4 : strContains output "#include <stdexcept>"
        · simp [validateOutput, ruleList, firstFail, h1, h2, h3, h4]
        · cases h5 : strContains output "#include \"example.h\""
          · simp [validateOutput, ruleList, firstFail, h1, h2, h3, h4, h5]
          · cases h6 : strContains output "TEST"
            · simp [validateOutput, ruleList, firstFail, h1, h2, h3, h4, h5, h6]
            · cases h7 : hasIncompleteTEST output.data
              · by_cases h8 : countOcc "TEST(CalculatorTest,".data output.data = 4
                · by_cases h9 :
                    0 < (methods.filter fun m => !(strContains output (m ++ "("))).length
                  · simp [validateOutput, ruleList, firstFail, h1, h2, h3, h4, h5, h6, h7,
                      h8, h9]
                  · by_cases h10 : braceDelta output.data = 0 <;>
                      simp [validateOutput, ruleList, firstFail, h1, h2, h3, h4, h5, h6,
                        h7, h8, h9, h10]
                · simp [validateOutput, ruleList, firstFail, h1, h2, h3, h4, h5, h6, h7, h8]
              · simp [validateOutput, ruleList, firstFail, h1, h2, h3, h4, h5, h6, h7]

/-- C2: the Output Validator accepts a normalized candidate text if
and only if all seven structural predicates hold (byte length at
least 250, the four required include directives present verbatim, the
TEST keyword present, no incomplete test-body pattern, exactly four
test declarations in the CalculatorTest suite, each required method
name immediately followed by an opening parenthesis, and equal counts
of opening and closing braces); the checks run in this order, and a
failing text is rejected with the first violated rule's reason
code. -/
theorem spec_C2 (output : String) :
    (validateOutput output = none ↔
      (250 ≤ output.utf8ByteSize ∧
       strContains output "#include <gtest/gtest.h>" = true ∧
       strContains output "#include <cmath>" = true ∧
       strContains output "#include <stdexcept>" = true ∧
       strContains output "#include \"example.h\"" = true ∧
       strContains output "TEST" = true ∧
       hasIncompleteTEST output.data = false ∧
       countOcc "TEST(CalculatorTest,".data output.data = 4 ∧
       strContains output "add(" = true ∧
       strContains output "subtract(" = true ∧
       output.data.count '\x7b' = output.data.count '\x7d')) ∧
    validateOutput output = firstFail (ruleList output) := by
  have ha : ("add" ++ "(" : String) = "add(" := rfl
  have hs : ("subtract" ++ "(" : String) = "subtract(" := rfl
  refine ⟨?_, validateOutput_eq_firstFail output⟩
  rw [validateOutput_eq_firstFail output, firstFail_eq_none]
  simp only [ruleList, List.mem_cons, List.not_mem_nil, or_false, forall_eq_or_imp,
    forall_eq, methods, List.filter, ha, hs, braceDelta_count]
  constructor
  · rintro ⟨c1, c2, c3, c4, c5, c6, c7, c8, c9, c10⟩
    refine ⟨by simpa using c1, c2, c3, c4, c5, c6, by simpa using c7, by simpa using c8,
      ?_, ?_, ?_⟩
    · cases hadd : strContains output "add(" <;> simp_all
    · cases hsub : strContains output "subtract(" <;>
        cases hadd : strContains output "add(" <;> simp_all
    · have := by simpa using c10
      omega
  · rintro ⟨c1, c2, c3, c4, c5, c6, c7, c8, c9, c10, c11⟩
    refine ⟨by simpa using c1, c2, c3, c4, c5, c6, by simpa using c7, by simpa using c8,
      ?_, by simp [c11]⟩
    simp [c9, c10]

/-- A 250-byte text with no include directives. -/
def padA : String := ⟨List.replicate 250 'a'⟩

/-- A long text containing the gtest include but not the cmath one. -/
def wCmath : String := "#include <gtest/gtest.h>" ++ padA

/-- A long text containing the gtest and cmath includes but not the
stdexcept one. -/
def wStdexcept : String := "#include <gtest/gtest.h>#include <cmath>" ++ padA

/-- A long text containing the first three required includes but not
the example.h one. -/
def wExampleH : String :=
  "#include <gtest/gtest.h>#include <cmath>#include <stdexcept>" ++ padA

/-- C3 counterexample: the empty output is missing the gtest include,
yet the Validator rejects it with the too-short reason code, not the
missing-include one — the length check runs first, so a missing
include does not fix the reason code regardless of other content. -/
theorem spec_C3_cex :
    strContains "" "#include <gtest/gtest.h>" = false ∧
    validateOutput "" = some Reason.tooShort ∧
    Reason.tooShort ≠ Reason.missingGtest := by decide

/-- C3 (amended): an output missing any of the four required includes
is always rejected; the verdict carries that include's missing-include
reason code provided the earlier checks pass (the 250-byte length
check, and the earlier include checks in the order gtest, cmath,
stdexcept, example.h), regardless of all later content; an output
that is also shorter than 250 bytes is rejected with the too-short
reason instead. -/
theorem spec_C3 :
    (∀ output : String,
      (strContains output "#include <gtest/gtest.h>" = false ∨
       strContains output "#include <cmath>" = false ∨
       strContains output "#include <stdexcept>" = false ∨
       strContains output "#include \"example.h\"" = false) →
      validateOutput output ≠ none) ∧
    (∀ output : String, ¬ output.utf8ByteSize < 250 →
      strContains output "#include <gtest/gtest.h>" = false →
      validateOutput output = some Reason.missingGtest) ∧
    (∀ output : String, ¬ output.utf8ByteSize < 250 →
      strContains output "#include <gtest/gtest.h>" = true →
      strContains output "#include <cmath>" = false →
      validateOutput output = some Reason.missingCmath) ∧
    (∀ output : String, ¬ output.utf8ByteSize < 250 →
      strContains output "#include <gtest/gtest.h>" = true →
      strContains output "#include <cmath>" = true →
      strContains output "#include <stdexcept>" = false →
      validateOutput output = some Reason.missingStdexcept) ∧
    (∀ output : String, ¬ output.utf8ByteSize < 250 →
      strContains output "#include <gtest/gtest.h>" = true →
      strContains output "#include <cmath>" = true →
      strContains output "#include <stdexcept>" = true →
      strContains output "#include \"example.h\"" = false →
      validateOutput output = some Reason.missingExampleH) := by
  refine ⟨?_, ?_, ?_, ?_, ?_⟩
  · intro output hmiss hnone
    rw [validateOutput_eq_firstFail, firstFail_eq_none] at hnone
    simp only [ruleList, List.mem_cons, List.not_mem_nil, or_false, forall_eq_or_imp,
      forall_eq] at hnone
    rcases hmiss with h | h | h | h <;> simp_all
  · intro output h1 h2
    simp [validateOutput, h1, h2]
  · intro output h1 h2 h3
    simp [validateOutput, h1, h2, h3]
  · intro output h1 h2 h3 h4
    simp [validateOutput, h1, h2, h3, h4]
  · intro output h1 h2 h3 h4 h5
    simp [validateOutput, h1, h2, h3, h4, h5]

set_option maxRecDepth 10000 in
/-- C3 witness: concrete rejected outputs for each of the four
missing-include cases, and the always-rejected fact for the first. -/
theorem spec_C3_witness :
    validateOutput padA ≠ none ∧
    validateOutput padA = some Reason.missingGtest ∧
    validateOutput wCmath = some Reason.missingCmath ∧
    validateOutput wStdexcept = some Reason.missingStdexcept ∧
    validateOutput wExampleH = some Reason.missingExampleH :=
  ⟨spec_C3.1 padA (Or.inl (by decide)),
   spec_C3.2.1 padA (by decide) (by decide),
   spec_C3.2.2.1 wCmath (by decide) (by decide) (by decide),
   spec_C3.2.2.2.1 wStdexcept (by decide) (by decide) (by decide) (by decide),
   spec_C3.2.2.2.2 wExampleH (by decide) (by decide) (by decide) (by decide) (by decide)⟩

/-- C4: the Coverage Gate parses the report's percentage and compares
it inclusively against the 80.0 threshold: 79.99 is rejected with a
below-threshold failure carrying the measured percentage, exactly
80.00 is accepted carrying the percentage, and in general a parsed
percentage c is accepted iff 80 ≤ c. -/
theorem spec_C4 :
    coverageGate 0 "Lines executed:79.99% of 100"
      = (false, mkRat 7999 100, some (RunErr.belowThreshold (mkRat 7999 100))) ∧
    coverageGate 0 "Lines executed:80.00% of 100" = (true, 80, none) ∧
    (∀ (out : String) (caps : String × String) (c : ℚ),
      parseGcovCapture out = some caps → parseDecimal caps.1.data = some c →
      ((80 ≤ c → coverageGate 0 out = (true, c, none)) ∧
       (c < 80 → coverageGate 0 out = (false, c, some (RunErr.belowThreshold c))))) := by
  refine ⟨by decide, by decide, ?_⟩
  intro out caps c hp hd
  unfold coverageGate
  simp only [hp, hd, if_neg (by simp : ¬ (0 : Nat) ≠ 0)]
  constructor
  · intro h80
    rw [if_neg (not_lt.mpr h80)]
  · intro hlt
    rw [if_pos hlt]

/-- C4 witness: a concrete 92% report is accepted by the gate. -/
theorem spec_C4_witness :
    coverageGate 0 "Lines executed:92.00% of 25" = (true, 92, none) :=
  (spec_C4.2.2 "Lines executed:92.00% of 25" ("92.00", "25") 92
    (by decide) (by decide)).1 (by decide)

/-- The generation request of `generateUnitTests` (main.go lines
94-101): target model, rendered prompt, and the two fixed generation
options (the `num_ctx` and `num_predict` entries of the options
map). -/
structure GenerateRequest where
  model : String
  prompt : String
  numCtx : Nat
  numPredict : Nat
deriving DecidableEq

/-- The prompt of `generateUnitTests` (main.go lines 63-91): the fixed
requirement lines, the inline example, and the code under test,
joined with newlines. -/
def buildPrompt (code : String) : String :=
  String.intercalate "\n" [
    "You are an expert C++ programmer tasked with generating unit tests using Google Test for the provided C++ code. Follow these requirements strictly:",
    "- Use C++17 standard.",
    "- Include exactly these headers: `#include <gtest/gtest.h>`, `#include <cmath>`, `#include <stdexcept>`, `#include \"example.h\"`.",
    "- Use `TEST` macros with descriptive names (e.g., `TEST(CalculatorTest, Add_PositiveNumbers)).",
    "- Write tests for these methods only: " ++ String.intercalate ", " methods ++ ".",
    "- Write exactly 4 test cases (2 per method): one for positive inputs and one for negative inputs.",
    "- Avoid edge cases involving INT_MIN or INT_MAX to prevent integer overflow issues.",
    "- Ensure each `TEST` macro has complete braces `\x7b\x7d` and valid assertions (`EXPECT_EQ`).",
    "- Output a complete, syntactically correct .cpp file without Markdown code fences, comments outside test code, or extra text.",
    "- Example format:",
    "#include <gtest/gtest.h>",
    "#include <cmath>",
    "#include <stdexcept>",
    "#include \"example.h\"",
    "TEST(CalculatorTest, Add_PositiveNumbers) \x7b",
    "    Calculator calc;",
    "    EXPECT_EQ(calc.add(2, 3), 5);",
    "\x7d",
    "",
    "**Code to test:**",
    code,
    "",
    "Generate the unit test code as a valid .cpp file following the example format exactly." ]

/-- The request as first built (main.go lines 94-101). -/
def buildReq (model code : String) : GenerateRequest :=
  ⟨model, buildPrompt code, 131072, 1024⟩

/-- The request actually sent for a given backend: the built request
with only the model field swapped (main.go line 104). -/
def reqFor (req0 : GenerateRequest) (m : String) : GenerateRequest :=
  ⟨m, req0.prompt, req0.numCtx, req0.numPredict⟩

/-- Outcome of one `client.Generate` call: a transport/backend error,
or the concatenated streamed response text. -/
inductive GenOutcome where
  | transportErr
  | ok (raw : String)
deriving DecidableEq

/-- Environment of one `generateUnitTests` run: whether the model
listing call fails, the listed model names, and the backend's raw
response for each (model, attempt) pair. -/
structure GenEnv where
  listErr : Bool
  listedModels : List String
  respond : String → Nat → GenOutcome

/-- The candidate backend list (main.go lines 55-60): the requested
model first, then every listed model other than it. -/
def availableModels (model : String) (listed : List String) : List String :=
  model :: listed.filter fun m => m ≠ model

/-- The debug artifact filename for one attempt (main.go line 127). -/
def artifactName (model : String) (attempt : Nat) : String :=
  "raw_response_" ++ model ++ "_attempt_" ++ toString attempt ++ ".txt"

/-- Log of one generation call: the request sent, the attempt number,
and the debug artifact written for it (filename and content), if
any. -/
structure GenLogEntry where
  request : GenerateRequest
  attempt : Nat
  artifact : Option (String × String)
deriving DecidableEq

/-- The two error returns of `generateUnitTests`: the model-listing
failure (main.go line 53) and exhaustion of all backends and attempts
(main.go line 196). -/
inductive GenFail where
  | listFailed
  | exhausted
deriving DecidableEq

/-- Result of a `generateUnitTests` run. -/
inductive GenResult where
  | ok (tests : String)
  | error (e : GenFail)
deriving DecidableEq

/-- The inner attempt loop of `generateUnitTests` (main.go lines
107-193) for one backend, over the remaining attempt numbers: on
transport error continue; on success normalize, write the debug
artifact, validate, and return the output on acceptance, otherwise
continue. -/
def tryModel (env : GenEnv) (req0 : GenerateRequest) (m : String) :
    List Nat → List GenLogEntry × Option String
  | [] => ([], none)
  | a :: rest =>
    match env.respond m a with
    | .transportErr =>
      let r := tryModel env req0 m rest
      (⟨reqFor req0 m, a, none⟩ :: r.1, r.2)
    | .ok raw =>
      let output := normalizeOutput raw
      let entry : GenLogEntry := ⟨reqFor req0 m, a, some (artifactName m a, output)⟩
      if validateOutput output = none then ([entry], some output)
      else
        let r := tryModel env req0 m rest
        (entry :: r.1, r.2)

/-- The outer backend loop of `generateUnitTests` (main.go lines
103-194): try each candidate backend for up to 3 attempts, returning
the first accepted output. -/
def tryModels (env : GenEnv) (req0 : GenerateRequest) :
    List String → List GenLogEntry × Option String
  | [] => ([], none)
  | m :: rest =>
    let r := tryModel env req0 m [1, 2, 3]
    match r.2 with
    | some out => (r.1, some out)
    | none =>
      let r2 := tryModels env req0 rest
      (r.1 ++ r2.1, r2.2)

/-- `generateUnitTests` (main.go lines 48-197): list models, build the
request once, and run the backend x attempt loop; returns the log of
generation calls made together with the result. -/
def generateUnitTestsRun (env : GenEnv) (model code : String) :
    List GenLogEntry × GenResult :=
  if env.listErr then ([], .error .listFailed)
  else
    match tryModels env (buildReq model code) (availableModels model env.listedModels) with
    | (l, some out) => (l, .ok out)
    | (l, none) => (l, .error .exhausted)

/-- Whether the (model, attempt) cell of the attempt matrix yields an
accepted output, and which. -/
def attemptSuccess (env : GenEnv) (m : String) (a : Nat) : Option String :=
  match env.respond m a with
  | .transportErr => none
  | .ok raw =>
    if validateOutput (normalizeOutput raw) = none then some (normalizeOutput raw) else none

/-- Invariant of every logged generation call: the request is the
built request with only the model swapped, and the debug artifact is
written exactly when the call succeeded at transport level, keyed by
model and attempt, containing the normalized output. -/
def entryOk (env : GenEnv) (req0 : GenerateRequest) (e : GenLogEntry) : Prop :=
  e.request = reqFor req0 e.request.model ∧
  e.artifact = match env.respond e.request.model e.attempt with
    | .transportErr => none
    | .ok raw => some (artifactName e.request.model e.attempt, normalizeOutput raw)

lemma attemptSuccess_validate (env : GenEnv) (m : String) (a : Nat) (out : String)
    (h : attemptSuccess env m a = some out) : validateOutput out = none := by
  cases hr : env.respond m a with
  | transportErr => simp [attemptSuccess, hr] at h
  | ok raw =>
    simp only [attemptSuccess, hr] at h
    by_cases hv : validateOutput (normalizeOutput raw) = none
    · rw [if_pos hv] at h
      injection h with h
      rw [← h]; exact hv
    · rw [if_neg hv] at h
      exact absurd h (by simp)

lemma tryModel_entries (env : GenEnv) (req0 : GenerateRequest) (m : String) :
    ∀ (as : List Nat) (e : GenLogEntry), e ∈ (tryModel env req0 m as).1 →
      e.request = reqFor req0 m ∧ e.attempt ∈ as ∧ entryOk env req0 e := by
  intro as
  induction as with
  | nil => intro e he; simp [tryModel] at he
  | cons a rest ih =>
    intro e he
    cases hr : env.respond m a with
    | transportErr =>
      simp only [tryModel, hr] at he
      rcases List.mem_cons.mp he with rfl | he
      · exact ⟨rfl, by simp, rfl, by simp [reqFor, entryOk, hr]⟩
      · obtain ⟨h1, h2, h3⟩ := ih e he
        exact ⟨h1, by simp [h2], h3⟩
    | ok raw =>
      by_cases hv : validateOutput (normalizeOutput raw) = none
      · simp only [tryModel, hr, if_pos hv] at he
        rcases List.mem_cons.mp he with rfl | he
        · exact ⟨rfl, by simp, rfl, by simp [reqFor, entryOk, hr]⟩
        · simp at he
      · simp only [tryModel, hr, if_neg hv] at he
        rcases List.mem_cons.mp he with rfl | he
        · exact ⟨rfl, by simp, rfl, by simp [reqFor, entryOk, hr]⟩
        · obtain ⟨h1, h2, h3⟩ := ih e he
          exact ⟨h1, by simp [h2], h3⟩

lemma tryModel_len (env : GenEnv) (req0 : GenerateRequest) (m : String) :
    ∀ as : List Nat, (tryModel env req0 m as).1.length ≤ as.length := by
  intro as
  induction as with
  | nil => simp [tryModel]
  | cons a rest ih =>
    cases hr : env.respond m a with
    | transportErr => simpa [tryModel, hr] using ih
    | ok raw =>
      by_cases hv : validateOutput (normalizeOutput raw) = none
      · simp [tryModel, hr, if_pos hv]
      · simpa [tryModel, hr, if_neg hv] using ih

lemma tryModel_none (env : GenEnv) (req0 : GenerateRequest) (m : String) :
    ∀ as : List Nat, (tryModel env req0 m as).2 = none →
      (tryModel env req0 m as).1.length = as.length ∧
      ∀ e ∈ (tryModel env req0 m as).1, attemptSuccess env m e.attempt = none := by
  intro as
  induction as with
  | nil => intro _; simp [tryModel]
  | cons a rest ih =>
    intro hn
    cases hr : env.respond m a with
    | transportErr =>
      simp only [tryModel, hr] at hn ⊢
      obtain ⟨hl, hfail⟩ := ih hn
      refine ⟨by simp [hl], ?_⟩
      intro e he
      rcases List.mem_cons.mp he with rfl | he
      · simp [attemptSuccess, hr]
      · exact hfail e he
    | ok raw =>
      by_cases hv : validateOutput (normalizeOutput raw) = none
      · simp [tryModel, hr, if_pos hv] at hn
      · simp only [tryModel, hr, if_neg hv] at hn ⊢
        obtain ⟨hl, hfail⟩ := ih hn
        refine ⟨by simp [hl], ?_⟩
        intro e he
        rcases List.mem_cons.mp he with rfl | he
        · simp [attemptSuccess, hr, hv]
        · exact hfail e he

lemma tryModel_some (env : GenEnv) (req0 : GenerateRequest) (m : String) :
    ∀ (as : List Nat) (out : String), (tryModel env req0 m as).2 = some out →
      ∃ pre lastE, (tryModel env req0 m as).1 = pre ++ [lastE] ∧
        attemptSuccess env m lastE.attempt = some out ∧
        ∀ e ∈ pre, attemptSuccess env m e.attempt = none := by
  intro as
  induction as with
  | nil => intro out h; simp [tryModel] at h
  | cons a rest ih =>
    intro out h
    cases hr : env.respond m a with
    | transportErr =>
      simp only [tryModel, hr] at h ⊢
      obtain ⟨pre, lastE, hsplit, hsucc, hfail⟩ := ih out h
      refine ⟨⟨reqFor req0 m, a, none⟩ :: pre, lastE, by simp [hsplit], hsucc, ?_⟩
      intro e he
      rcases List.mem_cons.mp he with rfl | he
      · simp [attemptSuccess, hr]
      · exact hfail e he
    | ok raw =>
      by_cases hv : validateOutput (normalizeOutput raw) = none
      · simp only [tryModel, hr, if_pos hv] at h ⊢
        injection h with h
        refine ⟨[], ⟨reqFor req0 m, a, some (artifactName m a, normalizeOutput raw)⟩,
          by simp, ?_, by simp⟩
        rw [h] at hv
        simp only [attemptSuccess, hr, h, if_pos hv]
      · simp only [tryModel, hr, if_neg hv] at h ⊢
        obtain ⟨pre, lastE, hsplit, hsucc, hfail⟩ := ih out h
        refine ⟨⟨reqFor req0 m, a, some (artifactName m a, normalizeOutput raw)⟩ :: pre,
          lastE, by simp [hsplit], hsucc, ?_⟩
        intro e he
        rcases List.mem_cons.mp he with rfl | he
        · simp [attemptSuccess, hr, hv]
        · exact hfail e he

lemma tryModels_entries (env : GenEnv) (req0 : GenerateRequest) :
    ∀ (ms : List String) (e : GenLogEntry), e ∈ (tryModels env req0 ms).1 →
      e.request.model ∈ ms ∧ e.request = reqFor req0 e.request.model ∧
      e.attempt ∈ [1, 2, 3] ∧ entryOk env req0 e := by
  intro ms
  induction ms with
  | nil => intro e he; simp [tryModels] at he
  | cons m rest ih =>
    intro e he
    cases hr2 : (tryModel env req0 m [1, 2, 3]).2 with
    | some out =>
      simp only [tryModels, hr2] at he
      obtain ⟨h1, h2, h3⟩ := tryModel_entries env req0 m [1, 2, 3] e he
      have hm : e.request.model = m := by rw [h1]; rfl
      exact ⟨by simp [hm], by rw [hm, h1], h2, h3⟩
    | none =>
      simp only [tryModels, hr2] at he
      rcases List.mem_append.mp he with he | he
      · obtain ⟨h1, h2, h3⟩ := tryModel_entries env req0 m [1, 2, 3] e he
        have hm : e.request.model = m := by rw [h1]; rfl
        exact ⟨by simp [hm], by rw [hm, h1], h2, h3⟩
      · obtain ⟨g1, g2, g3, g4⟩ := ih e he
        exact ⟨List.mem_cons_of_mem m g1, g2, g3, g4⟩

lemma tryModels_len (env : GenEnv) (req0 : GenerateRequest) :
    ∀ ms : List String, (tryModels env req0 ms).1.length ≤ 3 * ms.length := by
  intro ms
  induction ms with
  | nil => simp [tryModels]
  | cons m rest ih =>
    have h3 : (tryModel env req0 m [1, 2, 3]).1.length ≤ 3 :=
      tryModel_len env req0 m [1, 2, 3]
    cases hr2 : (tryModel env req0 m [1, 2, 3]).2 with
    | some out =>
      simp only [tryModels, hr2, List.length_cons]
      omega
    | none =>
      simp only [tryModels, hr2, List.length_append, List.length_cons]
      omega

lemma tryModels_none (env : GenEnv) (req0 : GenerateRequest) :
    ∀ ms : List String, (tryModels env req0 ms).2 = none →
      (tryModels env req0 ms).1.length = 3 * ms.length ∧
      ∀ e ∈ (tryModels env req0 ms).1,
        attemptSuccess env e.request.model e.attempt = none := by
  intro ms
  induction ms with
  | nil => intro _; simp [tryModels]
  | cons m rest ih =>
    intro hn
    cases hr2 : (tryModel env req0 m [1, 2, 3]).2 with
    | some out => simp [tryModels, hr2] at hn
    | none =>
      simp only [tryModels, hr2] at hn ⊢
      obtain ⟨hl1, hf1⟩ := tryModel_none env req0 m [1, 2, 3] hr2
      obtain ⟨hl2, hf2⟩ := ih hn
      refine ⟨by simp [List.length_append, hl1, hl2]; ring, ?_⟩
      intro e he
      rcases List.mem_append.mp he with he | he
      · obtain ⟨h1, _, _⟩ := tryModel_entries env req0 m [1, 2, 3] e he
        have hm : e.request.model = m := by rw [h1]; rfl
        rw [hm]
        exact hf1 e he
      · exact hf2 e he

lemma tryModels_some (env : GenEnv) (req0 : GenerateRequest) :
    ∀ (ms : List String) (out : String), (tryModels env req0 ms).2 = some out →
      ∃ pre lastE, (tryModels env req0 ms).1 = pre ++ [lastE] ∧
        attemptSuccess env lastE.request.model lastE.attempt = some out ∧
        ∀ e ∈ pre, attemptSuccess env e.request.model e.attempt = none := by
  intro ms
  induction ms with
  | nil => intro out h; simp [tryModels] at h
  | cons m rest ih =>
    intro out h
    cases hr2 : (tryModel env req0 m [1, 2, 3]).2 with
    | some out0 =>
      simp only [tryModels, hr2] at h ⊢
      injection h with h
      subst h
      obtain ⟨pre, lastE, hsplit, hsucc, hfail⟩ := tryModel_some env req0 m [1, 2, 3] out0 hr2
      have hlmem : lastE ∈ (tryModel env req0 m [1, 2, 3]).1 := by simp [hsplit]
      obtain ⟨hl1, _, _⟩ := tryModel_entries env req0 m [1, 2, 3] lastE hlmem
      have hlm : lastE.request.model = m := by rw [hl1]; rfl
      refine ⟨pre, lastE, hsplit, by rw [hlm]; exact hsucc, ?_⟩
      intro e he
      have hemem : e ∈ (tryModel env req0 m [1, 2, 3]).1 := by
        rw [hsplit]; exact List.mem_append_left _ he
      obtain ⟨h1, _, _⟩ := tryModel_entries env req0 m [1, 2, 3] e hemem
      have hm : e.request.model = m := by rw [h1]; rfl
      rw [hm]
      exact hfail e he
    | none =>
      simp only [tryModels, hr2] at h ⊢
      obtain ⟨pre2, lastE2, hsplit2, hsucc2, hfail2⟩ := ih out h
      obtain ⟨_, hf1⟩ := tryModel_none env req0 m [1, 2, 3] hr2
      refine ⟨(tryModel env req0 m [1, 2, 3]).1 ++ pre2, lastE2,
        by rw [hsplit2, List.append_assoc], hsucc2, ?_⟩
      intro e he
      rcases List.mem_append.mp he with he | he
      · obtain ⟨h1, _, _⟩ := tryModel_entries env req0 m [1, 2, 3] e he
        have hm : e.request.model = m := by rw [h1]; rfl
        rw [hm]
        exact hf1 e he
      · exact hfail2 e he

lemma gur_entries (env : GenEnv) (model code : String) :
    ∀ e ∈ (generateUnitTestsRun env model code).1,
      e.request.model ∈ availableModels model env.listedModels ∧
      e.request = reqFor (buildReq model code) e.request.model ∧
      e.attempt ∈ [1, 2, 3] ∧ entryOk env (buildReq model code) e := by
  intro e he
  cases hl : env.listErr with
  | true => simp [generateUnitTestsRun, hl] at he
  | false =>
    cases htm : tryModels env (buildReq model code) (availableModels model env.listedModels)
      with
    | mk l r =>
      have hfst : (generateUnitTestsRun env model code).1 = l := by
        cases r <;> simp [generateUnitTestsRun, hl, htm]
      rw [hfst] at he
      have h1 : (tryModels env (buildReq model code)
          (availableModels model env.listedModels)).1 = l := by rw [htm]
      exact tryModels_entries env (buildReq model code)
        (availableModels model env.listedModels) e (h1 ▸ he)

/-- A fixed valid candidate text: four complete CalculatorTest cases
exercising add and subtract, with all required includes. -/
def validTestText : String := String.intercalate "\n" [
  "#include <gtest/gtest.h>",
  "#include <cmath>",
  "#include <stdexcept>",
  "#include \"example.h\"",
  "TEST(CalculatorTest, Add_PositiveNumbers) \x7b",
  "    Calculator calc;",
  "    EXPECT_EQ(calc.add(2, 3), 5);",
  "\x7d",
  "TEST(CalculatorTest, Add_NegativeNumbers) \x7b",
  "    Calculator calc;",
  "    EXPECT_EQ(calc.add(-2, -3), -5);",
  "\x7d",
  "TEST(CalculatorTest, Subtract_PositiveNumbers) \x7b",
  "    Calculator calc;",
  "    EXPECT_EQ(calc.subtract(5, 3), 2);",
  "\x7d",
  "TEST(CalculatorTest, Subtract_NegativeNumbers) \x7b",
  "    Calculator calc;",
  "    EXPECT_EQ(calc.subtract(-5, -3), -2);",
  "\x7d" ]

/-- Backend stub whose first backend returns a too-short output on
attempt 1 and a valid candidate on attempt 2; one further backend is
listed but would only transport-error. -/
def envC5 : GenEnv :=
  ⟨false, ["m2"], fun m a =>
    if m = "m1" ∧ a = 1 then .ok "short"
    else if m = "m1" ∧ a = 2 then .ok validTestText
    else .transportErr⟩

/-- Backend stub that returns a fenced response on attempt 1
(rejected by the validator as too short after normalization) and
transport errors afterwards. -/
def envFenced : GenEnv :=
  ⟨false, [], fun _ a => if a = 1 then .ok "```cpp\nX\n```" else .transportErr⟩

/-- C5: a generation run issues at most 3 x N generation calls for N
available backends, issues exactly 3 x N before returning the
exhausted failure, and the first attempt anywhere in the
attempt-by-backend matrix whose output passes validation returns that
output immediately: it is the last call made, every earlier call
having failed. -/
theorem spec_C5 (env : GenEnv) (model code : String) :
    (generateUnitTestsRun env model code).1.length
        ≤ 3 * (availableModels model env.listedModels).length ∧
    ((generateUnitTestsRun env model code).2 = .error .exhausted →
      (generateUnitTestsRun env model code).1.length
        = 3 * (availableModels model env.listedModels).length) ∧
    (∀ out, (generateUnitTestsRun env model code).2 = .ok out →
      ∃ pre lastE, (generateUnitTestsRun env model code).1 = pre ++ [lastE] ∧
        attemptSuccess env lastE.request.model lastE.attempt = some out ∧
        ∀ e ∈ pre, attemptSuccess env e.request.model e.attempt = none) := by
  cases hl : env.listErr with
  | true =>
    refine ⟨by simp [generateUnitTestsRun, hl], ?_, ?_⟩
    · intro hx; simp [generateUnitTestsRun, hl] at hx
    · intro out hx; simp [generateUnitTestsRun, hl] at hx
  | false =>
    cases htm : tryModels env (buildReq model code) (availableModels model env.listedModels)
      with
    | mk l r =>
      have hfst : (generateUnitTestsRun env model code).1 = l := by
        cases r <;> simp [generateUnitTestsRun, hl, htm]
      have htm1 : (tryModels env (buildReq model code)
          (availableModels model env.listedModels)).1 = l := by rw [htm]
      cases r with
      | none =>
        have hsnd : (generateUnitTestsRun env model code).2 = .error .exhausted := by
          simp [generateUnitTestsRun, hl, htm]
        have htm2 : (tryModels env (buildReq model code)
            (availableModels model env.listedModels)).2 = none := by rw [htm]
        obtain ⟨hlen, _⟩ := tryModels_none env (buildReq model code)
          (availableModels model env.listedModels) htm2
        rw [htm1] at hlen
        refine ⟨by rw [hfst, hlen], fun _ => by rw [hfst, hlen], ?_⟩
        intro out hx
        rw [hsnd] at hx
        exact absurd hx (by simp)
      | some out0 =>
        have hsnd : (generateUnitTestsRun env model code).2 = .ok out0 := by
          simp [generateUnitTestsRun, hl, htm]
        have htm2 : (tryModels env (buildReq model code)
            (availableModels model env.listedModels)).2 = some out0 := by rw [htm]
        have hlen := tryModels_len env (buildReq model code)
          (availableModels model env.listedModels)
        rw [htm1] at hlen
        refine ⟨by rw [hfst]; exact hlen, ?_, ?_⟩
        · intro hx; rw [hsnd] at hx; exact absurd hx (by simp)
        · intro out hx
          rw [hsnd] at hx
          injection hx with hx
          subst hx
          obtain ⟨pre, lastE, hsplit, hsucc, hfail⟩ := tryModels_some env
            (buildReq model code) (availableModels model env.listedModels) out0 htm2
          rw [htm1] at hsplit
          exact ⟨pre, lastE, by rw [hfst, hsplit], hsucc, hfail⟩

set_option maxRecDepth 10000 in
/-- C5 witness: with the two-backend stub the call log respects the
budget and ends at the first accepted attempt (first backend, second
call) with every earlier call failing; with the always-failing stub,
exhaustion comes after exactly 3 x N calls. -/
theorem spec_C5_witness :
    (generateUnitTestsRun envC5 "m1" "c").1.length
        ≤ 3 * (availableModels "m1" envC5.listedModels).length ∧
    (∃ pre lastE, (generateUnitTestsRun envC5 "m1" "c").1 = pre ++ [lastE] ∧
      attemptSuccess envC5 lastE.request.model lastE.attempt = some validTestText ∧
      ∀ e ∈ pre, attemptSuccess envC5 e.request.model e.attempt = none) ∧
    (generateUnitTestsRun envFenced "m" "c").1.length
        = 3 * (availableModels "m" envFenced.listedModels).length :=
  ⟨(spec_C5 envC5 "m1" "c").1,
   (spec_C5 envC5 "m1" "c").2.2 validTestText (by decide),
   (spec_C5 envFenced "m" "c").2.1 (by decide)⟩

/-- C6: every generation call of a run sends the prompt and the two
generation options exactly as first built; the request differs from
the built one in the model field alone, including on calls made after
a validation rejection. -/
theorem spec_C6 (env : GenEnv) (model code : String) :
    ∀ e ∈ (generateUnitTestsRun env model code).1,
      e.request.prompt = buildPrompt code ∧ e.request.numCtx = 131072 ∧
      e.request.numPredict = 1024 ∧
      e.request = reqFor (buildReq model code) e.request.model := by
  intro e he
  obtain ⟨_, h2, _, _⟩ := gur_entries env model code e he
  refine ⟨?_, ?_, ?_, h2⟩ <;> rw [h2]
    <;> rfl

/-- The request every call of the fenced-stub run sends. -/
def reqFenced : GenerateRequest := reqFor (buildReq "m" "c") "m"

/-- Log entry of the first generation call of the fenced-stub run. -/
def entryFenced1 : GenLogEntry :=
  ⟨reqFenced, 1, some (artifactName "m" 1, normalizeOutput "```cpp\nX\n```")⟩

/-- Log entry of the second generation call of the fenced-stub run:
issued after the first attempt was rejected by the validator. -/
def entryFenced2 : GenLogEntry := ⟨reqFenced, 2, none⟩

/-- Log entry of the third generation call of the fenced-stub run. -/
def entryFenced3 : GenLogEntry := ⟨reqFenced, 3, none⟩

/-- The fenced-stub run's call log, entry by entry. -/
lemma envFenced_entries :
    (generateUnitTestsRun envFenced "m" "c").1 = [entryFenced1, entryFenced2, entryFenced3] :=
  rfl

/-- C6 witness: the call made after a validation rejection still
carries the originally built prompt and options. -/
theorem spec_C6_witness :
    entryFenced2.request.prompt = buildPrompt "c" ∧
    entryFenced2.request.numCtx = 131072 ∧ entryFenced2.request.numPredict = 1024 ∧
    entryFenced2.request = reqFor (buildReq "m" "c") entryFenced2.request.model :=
  spec_C6 envFenced "m" "c" entryFenced2 (by rw [envFenced_entries]; simp)

set_option maxRecDepth 10000 in
/-- C7 counterexample: with a backend whose first attempt returns the
fenced raw response, the run's only debug artifact holds the
normalized text "X", not the raw response, and the two
transport-failed attempts persist nothing at all - so the raw attempt
output is not what is persisted. -/
theorem spec_C7_cex :
    ((generateUnitTestsRun envFenced "m" "c").1.map fun e => e.artifact)
      = [some ("raw_response_m_attempt_1.txt", "X"), none, none] ∧
    ("X" : String) ≠ "```cpp\nX\n```" := by decide

/-- C7 (amended): for every generation attempt whose backend call
succeeds at transport level, the normalized (fence-stripped, trimmed)
output is persisted to a debug artifact named by the backend
identifier and the attempt number, whether or not the output is
subsequently accepted by the Validator; transport-failed attempts
persist nothing, and the persisted content is the normalized rather
than the raw response. -/
theorem spec_C7 (env : GenEnv) (model code : String) :
    ∀ e ∈ (generateUnitTestsRun env model code).1, ∀ raw : String,
      env.respond e.request.model e.attempt = GenOutcome.ok raw →
      e.artifact = some (artifactName e.request.model e.attempt, normalizeOutput raw) := by
  intro e he raw hresp
  obtain ⟨_, _, _, hok⟩ := gur_entries env model code e he
  obtain ⟨_, hart⟩ := hok
  rw [hresp] at hart
  simpa using hart

/-- C7 witness: the artifact of the fenced attempt is keyed by model
and attempt and holds the normalized output, although the attempt was
rejected by the validator. -/
theorem spec_C7_witness :
    entryFenced1.artifact
      = some (artifactName entryFenced1.request.model entryFenced1.attempt,
          normalizeOutput "```cpp\nX\n```") :=
  spec_C7 envFenced "m" "c" entryFenced1 (by rw [envFenced_entries]; simp)
    "```cpp\nX\n```" (by decide)

/-- filepath.Base for the plain file paths produced by directory
discovery: the substring after the last slash. -/
def basename (p : String) : String :=
  ⟨(p.data.reverse.takeWhile fun c => c ≠ '/').reverse⟩

/-- Index of the first occurrence of `pat` as a sublist of `s`. -/
def firstMatchIdx (pat : List Char) : List Char → Option Nat
  | [] => if pat.isEmpty then some 0 else none
  | c :: rest =>
    if pat.isPrefixOf (c :: rest) then some 0
    else (firstMatchIdx pat rest).map (· + 1)

/-- Go strings.Replace with n = 1 over character lists: splice `rep`
over the first occurrence of `pat`. -/
def replaceFirstL (s pat rep : List Char) : List Char :=
  match firstMatchIdx pat s with
  | none => s
  | some i => s.take i ++ rep ++ s.drop (i + pat.length)

/-- Go strings.Replace(s, pat, rep, 1). -/
def replaceFirstS (s pat rep : String) : String :=
  ⟨replaceFirstL s.data pat.data rep.data⟩

/-- The companion implementation path checked for a header unit
(main.go line 349). -/
def companionCpp (filePath : String) : String :=
  replaceFirstS filePath ".h" ".cpp"

/-- The companion header path checked for an implementation unit
(main.go line 355). -/
def companionH (filePath : String) : String :=
  replaceFirstS filePath ".cpp" ".h"

/-- The source file handed to the sandbox runner (main.go lines
368-372): for a header unit, its companion implementation. -/
def sourceFileOf (filePath : String) : String :=
  if strEndsWith filePath ".h" then replaceFirstS filePath ".h" ".cpp" else filePath

/-- The persisted-test output path (main.go lines 385-390):
`filepath.Join("./tests", x)` cleans the leading dot segment to
`tests/x`; the base name has its extension replaced, first occurrence
only, by the test suffix, with the header branch taking precedence
for names ending in ".h". -/
def testOutPath (filePath : String) : String :=
  let baseName := basename filePath
  if strEndsWith baseName ".h" then "tests/" ++ replaceFirstS baseName ".h" "_test.cpp"
  else "tests/" ++ replaceFirstS baseName ".cpp" "_test.cpp"

/-- Environment of one `runTestsAndCoverage` call: outcomes of the
filesystem steps, the three subprocess exit codes, whether the
companion header exists (the os.Stat of main.go line 225), and the
gcov report text. -/
structure SandboxEnv where
  mkTempOK : Bool
  writeTestOK : Bool
  copySourceOK : Bool
  copyHeaderOK : Bool
  headerExists : Bool
  compileExit : Nat
  runExit : Nat
  gcovExit : Nat
  gcovOutput : String

/-- `runTestsAndCoverage` (main.go lines 199-293): sandbox setup,
compile, run, then the coverage gate; each failing step returns the
same (passed, coverage, error) triple as the Go code, error cases of
the gcov/parse steps returning a true passed flag. -/
def runTestsAndCoverage (env : SandboxEnv) (_testFile sourceFile : String) :
    Bool × ℚ × Option RunErr :=
  if !env.mkTempOK then (false, 0, some .mkTempFailed)
  else if !env.writeTestOK then (false, 0, some .writeTestFailed)
  else if !env.copySourceOK then (false, 0, some .copySourceFailed)
  else if strEndsWith sourceFile ".cpp" && env.headerExists && !env.copyHeaderOK then
    (false, 0, some .copyHeaderFailed)
  else if env.compileExit ≠ 0 then (false, 0, some .compileFailed)
  else if env.runExit ≠ 0 then (false, 0, some .testsFailed)
  else coverageGate env.gcovExit env.gcovOutput

/-- The coverage percentage the gcov report parses to, if any. -/
def parsedCoverage (env : SandboxEnv) : Option ℚ :=
  match parseGcovCapture env.gcovOutput with
  | none => none
  | some caps => parseDecimal caps.1.data

/-- Environment of one orchestrator iteration: whether the companion
file exists (the pairing check), the generation environment, the
sandbox environment, and whether the final file write succeeds. -/
structure UnitEnv where
  companionExists : Bool
  gen : GenEnv
  sandbox : SandboxEnv
  writeOK : Bool

/-- Terminal state of one source unit in the orchestrator loop
(main.go lines 343-399), one constructor per way the loop body ends. -/
inductive UnitResult where
  | skipped
  | genFailed
  | stageFailed (e : RunErr)
  | notPassed
  | writeFailed (path : String)
  | persisted (path : String) (tests : String)
deriving DecidableEq

/-- One iteration of the orchestrator loop (main.go lines 343-399):
pairing check, generation, sandbox run, then the persistence
decision. -/
def processUnit (filePath content : String) (env : UnitEnv) : UnitResult :=
  if !env.companionExists then .skipped
  else
    match (generateUnitTestsRun env.gen "qwen2.5-coder:7b" content).2 with
    | .error _ => .genFailed
    | .ok tests =>
      let r := runTestsAndCoverage env.sandbox tests (sourceFileOf filePath)
      match r.2.2 with
      | some e => .stageFailed e
      | none =>
        if !r.1 then .notPassed
        else if env.writeOK then .persisted (testOutPath filePath) tests
        else .writeFailed (testOutPath filePath)

/-- The orchestrator loop over the discovered units: every branch of
the loop body in main.go ends with continue, so the loop always
advances to the next unit. -/
def runPipeline (envf : String × String → UnitEnv) :
    List (String × String) → List UnitResult
  | [] => []
  | u :: rest => processUnit u.1 u.2 (envf u) :: runPipeline envf rest

lemma gur_ok_validate (env : GenEnv) (model code out : String)
    (h : (generateUnitTestsRun env model code).2 = .ok out) : validateOutput out = none := by
  cases hl : env.listErr with
  | true => simp [generateUnitTestsRun, hl] at h
  | false =>
    cases htm : tryModels env (buildReq model code) (availableModels model env.listedModels)
      with
    | mk l r =>
      cases r with
      | none => simp [generateUnitTestsRun, hl, htm] at h
      | some out0 =>
        have hoo : out0 = out := by
          simp [generateUnitTestsRun, hl, htm] at h
          exact h
        subst hoo
        have htm2 : (tryModels env (buildReq model code)
            (availableModels model env.listedModels)).2 = some out0 := by rw [htm]
        obtain ⟨pre, lastE, _, hsucc, _⟩ := tryModels_some env (buildReq model code)
          (availableModels model env.listedModels) out0 htm2
        exact attemptSuccess_validate env _ _ out0 hsucc

lemma runTests_ok (env : SandboxEnv) (tf sf : String)
    (h : (runTestsAndCoverage env tf sf).2.2 = none) :
    env.compileExit = 0 ∧ env.runExit = 0 ∧ env.gcovExit = 0 ∧
    ∃ c, parsedCoverage env = some c ∧ 80 ≤ c ∧
      runTestsAndCoverage env tf sf = (true, c, none) := by
  unfold runTestsAndCoverage at h
  split_ifs at h with h1 h2 h3 h4 h5 h6
  unfold coverageGate at h
  split_ifs at h with h7
  refine ⟨by omega, by omega, by omega, ?_⟩
  cases hpc : parseGcovCapture env.gcovOutput with
  | none => simp [hpc] at h
  | some caps =>
    simp only [hpc] at h
    cases hpd : parseDecimal caps.1.data with
    | none => simp [hpd] at h
    | some c =>
      simp only [hpd] at h
      by_cases hc : c < 80
      · rw [if_pos hc] at h; simp at h
      · refine ⟨c, by simp [parsedCoverage, hpc, hpd], not_lt.mp hc, ?_⟩
        simp [runTestsAndCoverage, coverageGate, h1, h2, h3, h4, h5, h6, h7,
          hpc, hpd, hc]

lemma processUnit_persisted (filePath content : String) (env : UnitEnv) (p t : String)
    (h : processUnit filePath content env = .persisted p t) :
    env.companionExists = true ∧
    (generateUnitTestsRun env.gen "qwen2.5-coder:7b" content).2 = .ok t ∧
    (runTestsAndCoverage env.sandbox t (sourceFileOf filePath)).2.2 = none ∧
    (runTestsAndCoverage env.sandbox t (sourceFileOf filePath)).1 = true ∧
    env.writeOK = true ∧ p = testOutPath filePath := by
  cases hce : env.companionExists with
  | false => simp [processUnit, hce] at h
  | true =>
    cases hg : (generateUnitTestsRun env.gen "qwen2.5-coder:7b" content).2 with
    | error e => simp [processUnit, hce, hg] at h
    | ok tests =>
      simp only [processUnit, hce, hg, Bool.not_true, Bool.false_eq_true, if_false] at h
      cases hr : (runTestsAndCoverage env.sandbox tests (sourceFileOf filePath)).2.2 with
      | some e => simp [hr] at h
      | none =>
        simp only [hr] at h
        cases hp1 : (runTestsAndCoverage env.sandbox tests (sourceFileOf filePath)).1 with
        | false => simp [hp1] at h
        | true =>
          simp only [hp1, Bool.not_true, Bool.false_eq_true, if_false] at h
          cases hw : env.writeOK with
          | false => simp [hw] at h
          | true =>
            simp only [hw, if_true] at h
            have hinj := h
            rw [UnitResult.persisted.injEq] at hinj
            obtain ⟨hp, ht⟩ := hinj
            subst hp
            subst ht
            exact ⟨rfl, rfl, hr, hp1, rfl, rfl⟩

/-- C1: a unit's generated test text is persisted to the tests output
path only if the Validator accepted it, the compile and test-run
steps exited zero, and the parsed coverage percentage is at least the
80 threshold; the path is the one derived from the unit's base
name. -/
theorem spec_C1 (filePath content : String) (env : UnitEnv) (p t : String)
    (h : processUnit filePath content env = .persisted p t) :
    validateOutput t = none ∧ env.sandbox.compileExit = 0 ∧ env.sandbox.runExit = 0 ∧
    (∃ c, parsedCoverage env.sandbox = some c ∧ 80 ≤ c) ∧ p = testOutPath filePath := by
  obtain ⟨_, hg, hr, _, _, hp⟩ := processUnit_persisted filePath content env p t h
  obtain ⟨hc0, hr0, _, c, hpc, hc80, _⟩ := runTests_ok env.sandbox t (sourceFileOf filePath) hr
  exact ⟨gur_ok_validate env.gen _ content t hg, hc0, hr0, ⟨c, hpc, hc80⟩, hp⟩

/-- Generation stub that accepts immediately with the valid fixture. -/
def envAccept : GenEnv := ⟨false, [], fun _ _ => .ok validTestText⟩

/-- Sandbox environment in which every step succeeds and gcov reports
92% coverage. -/
def sandboxOK : SandboxEnv := ⟨true, true, true, true, true, 0, 0, 0,
  "Lines executed:92.00% of 25"⟩

/-- Unit environment for a fully successful pipeline run. -/
def unitEnvOK : UnitEnv := ⟨true, envAccept, sandboxOK, true⟩

set_option maxRecDepth 10000 in
/-- C1 witness: the fully successful concrete run persists the fixture
text, which the Validator accepts, with zero exit codes and coverage
92 at the derived path. -/
theorem spec_C1_witness :
    validateOutput validTestText = none ∧ unitEnvOK.sandbox.compileExit = 0 ∧
    unitEnvOK.sandbox.runExit = 0 ∧
    (∃ c, parsedCoverage unitEnvOK.sandbox = some c ∧ 80 ≤ c) ∧
    ("tests/example_test.cpp" : String) = testOutPath "example.h" :=
  spec_C1 "example.h" "code" unitEnvOK "tests/example_test.cpp" validTestText (by decide)

/-- C8: the orchestrator maps every discovered unit to its own
terminal state: the outcome list is exactly the per-unit outcomes in
order, one per unit, and splitting the unit list around any one unit
shows the later units' outcomes are computed regardless of how that
unit ended - a stage failure never aborts the batch. -/
theorem spec_C8 (units : List (String × String)) (envf : String × String → UnitEnv) :
    runPipeline envf units = units.map (fun u => processUnit u.1 u.2 (envf u)) ∧
    (runPipeline envf units).length = units.length ∧
    ∀ (pre post : List (String × String)) (u : String × String),
      runPipeline envf (pre ++ u :: post)
        = runPipeline envf pre
          ++ processUnit u.1 u.2 (envf u) :: runPipeline envf post := by
  have h : ∀ us : List (String × String),
      runPipeline envf us = us.map fun u => processUnit u.1 u.2 (envf u) := by
    intro us
    induction us with
    | nil => rfl
    | cons u rest ih => simp [runPipeline, ih]
  refine ⟨h units, by rw [h units]; simp, ?_⟩
  intro pre post u
  simp [h, List.map_append]

/-- C9: when the gcov invocation fails, or its output lacks the
"Lines executed" pattern, runTestsAndCoverage returns the success
flag true together with coverage 0 and an error; the flag alone does
not reflect the failure, and it is the error, checked first by the
orchestrator, that prevents persistence: a persisted unit always has
a nil error from its run. -/
theorem spec_C9 :
    (∀ (env : SandboxEnv) (tf sf : String),
      env.mkTempOK = true → env.writeTestOK = true → env.copySourceOK = true →
      (strEndsWith sf ".cpp" && env.headerExists && !env.copyHeaderOK) = false →
      env.compileExit = 0 → env.runExit = 0 → env.gcovExit ≠ 0 →
      runTestsAndCoverage env tf sf = (true, 0, some RunErr.gcovFailed)) ∧
    (∀ (env : SandboxEnv) (tf sf : String),
      env.mkTempOK = true → env.writeTestOK = true → env.copySourceOK = true →
      (strEndsWith sf ".cpp" && env.headerExists && !env.copyHeaderOK) = false →
      env.compileExit = 0 → env.runExit = 0 → env.gcovExit = 0 →
      parseGcovCapture env.gcovOutput = none →
      runTestsAndCoverage env tf sf = (true, 0, some RunErr.parseFailed)) ∧
    (∀ (filePath content : String) (env : UnitEnv) (p t : String),
      processUnit filePath content env = .persisted p t →
      (generateUnitTestsRun env.gen "qwen2.5-coder:7b" content).2 = .ok t ∧
      (runTestsAndCoverage env.sandbox t (sourceFileOf filePath)).2.2 = none) := by
  refine ⟨?_, ?_, ?_⟩
  · intro env tf sf e1 e2 e3 e4 e5 e6 e7
    simp [runTestsAndCoverage, coverageGate, e1, e2, e3, e4, e5, e6, e7]
  · intro env tf sf e1 e2 e3 e4 e5 e6 e7 e8
    simp [runTestsAndCoverage, coverageGate, e1, e2, e3, e4, e5, e6, e7, e8]
  · intro filePath content env p t h
    obtain ⟨_, hg, hr, _, _, _⟩ := processUnit_persisted filePath content env p t h
    exact ⟨hg, hr⟩

/-- Sandbox environment whose gcov invocation exits nonzero. -/
def sandboxGcovFail : SandboxEnv := ⟨true, true, true, true, true, 0, 0, 1, ""⟩

/-- Sandbox environment whose gcov report lacks the expected
pattern. -/
def sandboxNoPattern : SandboxEnv := ⟨true, true, true, true, true, 0, 0, 0, "no coverage"⟩

set_option maxRecDepth 10000 in
/-- C9 witness: concrete gcov-failure and pattern-absence runs return
the true flag with an error, and the fully successful persisted run
indeed carries a nil error. -/
theorem spec_C9_witness :
    runTestsAndCoverage sandboxGcovFail "t" "s.cpp" = (true, 0, some RunErr.gcovFailed) ∧
    runTestsAndCoverage sandboxNoPattern "t" "s.cpp" = (true, 0, some RunErr.parseFailed) ∧
    ((generateUnitTestsRun unitEnvOK.gen "qwen2.5-coder:7b" "code").2 = .ok validTestText ∧
      (runTestsAndCoverage unitEnvOK.sandbox validTestText (sourceFileOf "example.h")).2.2
        = none) :=
  ⟨spec_C9.1 sandboxGcovFail "t" "s.cpp" rfl rfl rfl (by decide) rfl rfl (by decide),
   spec_C9.2.1 sandboxNoPattern "t" "s.cpp" rfl rfl rfl (by decide) rfl rfl rfl (by decide),
   spec_C9.2.2 "example.h" "code" unitEnvOK "tests/example_test.cpp" validTestText
     (by decide)⟩

lemma isPrefixOf_length_le (p : List Char) :
    ∀ l : List Char, p.isPrefixOf l = true → p.length ≤ l.length := by
  induction p with
  | nil => intro l _; simp
  | cons a p ih =>
    intro l h
    cases l with
    | nil => simp [List.isPrefixOf] at h
    | cons b l =>
      simp only [List.isPrefixOf, Bool.and_eq_true] at h
      have := ih l h.2
      simp only [List.length_cons]
      omega

lemma isPrefixOf_refl (p : List Char) : p.isPrefixOf p = true := by
  induction p with
  | nil => rfl
  | cons a t ih => simp [List.isPrefixOf, ih]

lemma isPrefixOf_append_self (p z : List Char) : p.isPrefixOf (p ++ z) = true := by
  induction p with
  | nil => cases z <;> rfl
  | cons a t ih => simp [List.isPrefixOf, ih]

lemma isPrefixOf_eq_of_le (p : List Char) :
    ∀ l : List Char, p.isPrefixOf l = true → l.length ≤ p.length → l = p := by
  induction p with
  | nil =>
    intro l _ hlen
    cases l with
    | nil => rfl
    | cons b l' => simp at hlen
  | cons a p ih =>
    intro l h hlen
    cases l with
    | nil => simp [List.isPrefixOf] at h
    | cons b l' =>
      simp only [List.isPrefixOf, Bool.and_eq_true, beq_iff_eq] at h
      have hl' : l' = p := ih l' h.2 (by simpa using hlen)
      rw [hl', h.1]

lemma takeWhile_append_all (q : Char → Bool) :
    ∀ l₁ l₂ : List Char, (∀ c ∈ l₁, q c = true) →
      (l₁ ++ l₂).takeWhile q = l₁ ++ l₂.takeWhile q := by
  intro l₁
  induction l₁ with
  | nil => intro l₂ _; simp
  | cons a t ih =>
    intro l₂ h
    have ha : q a = true := h a (by simp)
    simp [List.takeWhile, ha, ih l₂ fun c hc => h c (by simp [hc])]

lemma basename_data (l : List Char) :
    (basename ⟨l⟩).data = (l.reverse.takeWhile fun c => c ≠ '/').reverse := rfl

lemma basename_append (x y : List Char) (hy : ∀ c ∈ y, c ≠ '/') :
    (basename ⟨x ++ y⟩).data = (basename ⟨x⟩).data ++ y := by
  have hq : ∀ c ∈ y.reverse, decide (c ≠ '/') = true := by
    intro c hc
    exact decide_eq_true (hy c (List.mem_reverse.mp hc))
  rw [basename_data, basename_data, List.reverse_append,
    takeWhile_append_all _ y.reverse x.reverse hq,
    List.reverse_append, List.reverse_reverse]

lemma exists_basename_decomp (l : List Char) :
    ∃ d, l = d ++ (basename ⟨l⟩).data := by
  refine ⟨(l.reverse.dropWhile fun c => c ≠ '/').reverse, ?_⟩
  rw [basename_data, ← List.reverse_append, List.takeWhile_append_dropWhile,
    List.reverse_reverse]

lemma replaceFirstL_some (s pat rep : List Char) (i : Nat)
    (h : firstMatchIdx pat s = some i) :
    replaceFirstL s pat rep = s.take i ++ rep ++ s.drop (i + pat.length) := by
  unfold replaceFirstL
  rw [h]

lemma take_append_len (l₁ l₂ : List Char) : (l₁ ++ l₂).take l₁.length = l₁ := by
  induction l₁ with
  | nil => simp
  | cons a t ih => simp [ih]

lemma drop_append_add (l₁ l₂ : List Char) (i : Nat) :
    (l₁ ++ l₂).drop (l₁.length + i) = l₂.drop i := by
  induction l₁ with
  | nil => simp
  | cons a t ih => simp [Nat.succ_add, ih]

lemma drop_append_len (l₁ l₂ : List Char) : (l₁ ++ l₂).drop l₁.length = l₂ := by
  induction l₁ with
  | nil => simp
  | cons a t ih => simp [ih]

lemma firstMatchIdx_isPrefix (pat : List Char) :
    ∀ (s : List Char) (i : Nat), firstMatchIdx pat s = some i →
      pat.isPrefixOf (s.drop i) = true := by
  intro s
  induction s with
  | nil =>
    intro i h
    cases pat with
    | nil =>
      simp only [firstMatchIdx, List.isEmpty_nil, if_true] at h
      injection h with h
      subst h
      rfl
    | cons a p => simp [firstMatchIdx] at h
  | cons c rest ih =>
    intro i h
    cases hp : pat.isPrefixOf (c :: rest) with
    | true =>
      simp only [firstMatchIdx, hp, if_true] at h
      injection h with h
      subst h
      exact hp
    | false =>
      simp only [firstMatchIdx, hp, Bool.false_eq_true, if_false] at h
      cases hf : firstMatchIdx pat rest with
      | none => rw [hf] at h; simp at h
      | some j =>
        rw [hf] at h
        simp only [Option.map_some'] at h
        injection h with h
        subst h
        exact ih j hf

lemma firstMatchIdx_none_before (pat : List Char) :
    ∀ (s : List Char) (i : Nat), firstMatchIdx pat s = some i →
      ∀ j : Nat, j < i → pat.isPrefixOf (s.drop j) = false := by
  intro s
  induction s with
  | nil =>
    intro i h j hj
    cases pat with
    | nil =>
      simp only [firstMatchIdx, List.isEmpty_nil, if_true] at h
      injection h with h
      subst h
      exact absurd hj (by omega)
    | cons a p => simp [firstMatchIdx] at h
  | cons c rest ih =>
    intro i h j hj
    cases hp : pat.isPrefixOf (c :: rest) with
    | true =>
      simp only [firstMatchIdx, hp, if_true] at h
      injection h with h
      subst h
      exact absurd hj (by omega)
    | false =>
      simp only [firstMatchIdx, hp, Bool.false_eq_true, if_false] at h
      cases hf : firstMatchIdx pat rest with
      | none => rw [hf] at h; simp at h
      | some k =>
        rw [hf] at h
        simp only [Option.map_some'] at h
        injection h with h
        subst h
        cases j with
        | zero => exact hp
        | succ j' => exact ih k hf j' (by omega)

lemma firstMatchIdx_of (pat : List Char) :
    ∀ (s : List Char) (i : Nat), pat.isPrefixOf (s.drop i) = true →
      (∀ j : Nat, j < i → pat.isPrefixOf (s.drop j) = false) →
      firstMatchIdx pat s = some i := by
  intro s
  induction s with
  | nil =>
    intro i hi hbefore
    have hpe : pat = [] := by
      cases pat with
      | nil => rfl
      | cons a p => simp [List.drop_nil, List.isPrefixOf] at hi
    subst hpe
    have hi0 : i = 0 := by
      by_contra hne
      have := hbefore 0 (by omega)
      simp [List.drop_nil, List.isPrefixOf] at this
    subst hi0
    simp [firstMatchIdx]
  | cons c rest ih =>
    intro i hi hbefore
    cases i with
    | zero =>
      have hp : pat.isPrefixOf (c :: rest) = true := hi
      simp [firstMatchIdx, hp]
    | succ i' =>
      have hp : pat.isPrefixOf (c :: rest) = false := hbefore 0 (by omega)
      have hrest : firstMatchIdx pat rest = some i' := by
        refine ih i' hi ?_
        intro j hj
        exact hbefore (j + 1) (by omega)
      simp [firstMatchIdx, hp, hrest]

lemma firstMatchIdx_tail (pat d x : List Char)
    (h : firstMatchIdx pat (d ++ x ++ pat) = some ((d ++ x).length)) :
    firstMatchIdx pat (x ++ pat) = some x.length := by
  refine firstMatchIdx_of pat (x ++ pat) x.length ?_ ?_
  · rw [drop_append_len]
    exact isPrefixOf_refl pat
  · intro j hj
    have hb := firstMatchIdx_none_before pat (d ++ x ++ pat) ((d ++ x).length) h
      (d.length + j) (by rw [List.length_append]; omega)
    rw [List.append_assoc, drop_append_add] at hb
    exact hb

lemma endsWith_append (l : List Char) (p : String) : strEndsWith ⟨l ++ p.data⟩ p = true := by
  unfold strEndsWith
  rw [show (⟨l ++ p.data⟩ : String).data = l ++ p.data from rfl, List.reverse_append]
  exact isPrefixOf_append_self _ _

lemma endsWith_cpp_not_h (l : List Char) :
    strEndsWith ⟨l ++ ['.', 'c', 'p', 'p']⟩ ".h" = false := by
  have hh : (".h" : String).data.reverse = ['h', '.'] := by decide
  unfold strEndsWith
  rw [show (⟨l ++ ['.', 'c', 'p', 'p']⟩ : String).data = l ++ ['.', 'c', 'p', 'p'] from rfl,
    List.reverse_append, hh,
    show (['.', 'c', 'p', 'p'] : List Char).reverse = ['p', 'p', 'c', '.'] from by decide]
  simp [List.isPrefixOf]

/-- C10 counterexample: for the discoverable header name "a.cpp.h",
whose companion implementation is "a.cpp.cpp", the two units derive
different output paths, because the first-occurrence extension
replacement fires at different places in the two names. -/
theorem spec_C10_cex :
    companionCpp "a.cpp.h" = "a.cpp.cpp" ∧
    testOutPath "a.cpp.h" = "tests/a.cpp_test.cpp" ∧
    testOutPath "a.cpp.cpp" = "tests/a_test.cpp.cpp" ∧
    testOutPath "a.cpp.h" ≠ testOutPath (companionCpp "a.cpp.h") := by decide

/-- C10 (amended): for every paired source unit whose header path
contains ".h" first (and hence only) at its trailing extension, and
whose companion implementation path contains ".cpp" first at its
trailing extension, the persisted-test output path derived from the
header is identical to the path derived from the companion
implementation - both are the shared base stem with the test suffix
under the tests directory - so the two halves of one pair write to
the same output file and the later write overwrites the earlier one;
paths with an earlier ".h" or ".cpp" occurrence (such as "a.cpp.h")
derive different output paths. -/
theorem spec_C10 (b : String)
    (h1 : strEndsWith b ".h" = true)
    (h2 : firstMatchIdx ".h".data b.data = some (b.data.length - 2))
    (h3 : firstMatchIdx ".cpp".data (companionCpp b).data
      = some ((companionCpp b).data.length - 4)) :
    testOutPath b = testOutPath (companionCpp b) := by
  have hlh : (".h" : String).data.length = 2 := by decide
  have hlcpp : (".cpp" : String).data.length = 4 := by decide
  have hcppl : (".cpp" : String).data = ['.', 'c', 'p', 'p'] := by decide
  have hn : 2 ≤ b.data.length := by
    unfold strEndsWith at h1
    have := isPrefixOf_length_le _ _ h1
    simpa using this
  have hdropb : b.data.drop (b.data.length - 2 + 2) = [] := by
    rw [Nat.sub_add_cancel hn]
    exact List.drop_length b.data
  have hdrop_eq : b.data.drop (b.data.length - 2) = ".h".data := by
    refine isPrefixOf_eq_of_le _ _ (firstMatchIdx_isPrefix _ _ _ h2) ?_
    rw [List.length_drop, hlh]
    omega
  have hsb0 : b.data = b.data.take (b.data.length - 2) ++ ".h".data := by
    conv_lhs => rw [← List.take_append_drop (b.data.length - 2) b.data]
    rw [hdrop_eq]
  obtain ⟨s, hsb⟩ : ∃ s, b.data = s ++ ".h".data := ⟨_, hsb0⟩
  have hblen : b.data.length = s.length + 2 := by rw [hsb, List.length_append, hlh]
  have htake_s : b.data.take (b.data.length - 2) = s := by
    rw [show b.data.length - 2 = s.length from by omega]
    conv_lhs => rw [hsb]
    exact take_append_len s ".h".data
  have hcomp : companionCpp b = ⟨s ++ ".cpp".data⟩ := by
    unfold companionCpp replaceFirstS
    rw [replaceFirstL_some _ _ _ _ h2, hlh, hdropb, List.append_nil, htake_s]
  have hcompd : (companionCpp b).data = s ++ ".cpp".data := by rw [hcomp]
  obtain ⟨d, hd⟩ := exists_basename_decomp s
  have hbS : b = ⟨s ++ ".h".data⟩ := by rw [← hsb]
  have hbase_b : (basename b).data = (basename ⟨s⟩).data ++ ".h".data := by
    rw [hbS]
    exact basename_append s ".h".data (by decide)
  have hbase_c : (basename (companionCpp b)).data
      = (basename ⟨s⟩).data ++ ".cpp".data := by
    rw [hcomp]
    exact basename_append s ".cpp".data (by decide)
  have h2s : firstMatchIdx ".h".data ((d ++ (basename ⟨s⟩).data) ++ ".h".data)
      = some ((d ++ (basename ⟨s⟩).data).length) := by
    have h2x := h2
    rw [show b.data.length - 2 = s.length from by omega, hsb, hd] at h2x
    exact h2x
  have hF4 : firstMatchIdx ".h".data ((basename ⟨s⟩).data ++ ".h".data)
      = some (basename ⟨s⟩).data.length :=
    firstMatchIdx_tail ".h".data d (basename ⟨s⟩).data h2s
  have hlen3 : (companionCpp b).data.length - 4 = s.length := by
    rw [hcompd, List.length_append, hlcpp]
    omega
  have h3s : firstMatchIdx ".cpp".data ((d ++ (basename ⟨s⟩).data) ++ ".cpp".data)
      = some ((d ++ (basename ⟨s⟩).data).length) := by
    have h3x := h3
    rw [hlen3, hcompd, hd] at h3x
    exact h3x
  have hF5 : firstMatchIdx ".cpp".data ((basename ⟨s⟩).data ++ ".cpp".data)
      = some (basename ⟨s⟩).data.length :=
    firstMatchIdx_tail ".cpp".data d (basename ⟨s⟩).data h3s
  have hF5l : firstMatchIdx ['.', 'c', 'p', 'p']
      ((basename ⟨s⟩).data ++ ['.', 'c', 'p', 'p'])
      = some (basename ⟨s⟩).data.length := by
    rw [← hcppl]
    exact hF5
  have hbn : basename b = ⟨(basename ⟨s⟩).data ++ ".h".data⟩ := by
    rw [← hbase_b]
  have hbnc : basename (companionCpp b)
      = ⟨(basename ⟨s⟩).data ++ ['.', 'c', 'p', 'p']⟩ := by
    rw [← hcppl, ← hbase_c]
  have hheader : testOutPath b
      = "tests/" ++ ⟨(basename ⟨s⟩).data ++ "_test.cpp".data⟩ := by
    unfold testOutPath
    rw [hbn]
    show (if strEndsWith ⟨(basename ⟨s⟩).data ++ ".h".data⟩ ".h" = true then
        "tests/" ++ replaceFirstS ⟨(basename ⟨s⟩).data ++ ".h".data⟩ ".h" "_test.cpp"
      else
        "tests/" ++ replaceFirstS ⟨(basename ⟨s⟩).data ++ ".h".data⟩ ".cpp" "_test.cpp")
      = "tests/" ++ ⟨(basename ⟨s⟩).data ++ "_test.cpp".data⟩
    rw [if_pos (endsWith_append (basename ⟨s⟩).data ".h")]
    unfold replaceFirstS
    show "tests/" ++ ⟨replaceFirstL ((basename ⟨s⟩).data ++ ".h".data) ".h".data
        "_test.cpp".data⟩
      = "tests/" ++ ⟨(basename ⟨s⟩).data ++ "_test.cpp".data⟩
    rw [replaceFirstL_some _ _ _ _ hF4, hlh, take_append_len, drop_append_add,
      show (".h" : String).data.drop 2 = [] from by decide, List.append_nil]
  have hcompanion : testOutPath (companionCpp b)
      = "tests/" ++ ⟨(basename ⟨s⟩).data ++ "_test.cpp".data⟩ := by
    unfold testOutPath
    rw [hbnc]
    show (if strEndsWith ⟨(basename ⟨s⟩).data ++ ['.', 'c', 'p', 'p']⟩ ".h" = true then
        "tests/" ++ replaceFirstS ⟨(basename ⟨s⟩).data ++ ['.', 'c', 'p', 'p']⟩ ".h"
          "_test.cpp"
      else
        "tests/" ++ replaceFirstS ⟨(basename ⟨s⟩).data ++ ['.', 'c', 'p', 'p']⟩ ".cpp"
          "_test.cpp")
      = "tests/" ++ ⟨(basename ⟨s⟩).data ++ "_test.cpp".data⟩
    rw [if_neg (by rw [endsWith_cpp_not_h]; exact Bool.false_ne_true)]
    unfold replaceFirstS
    show "tests/" ++ ⟨replaceFirstL ((basename ⟨s⟩).data ++ ['.', 'c', 'p', 'p'])
        ".cpp".data "_test.cpp".data⟩
      = "tests/" ++ ⟨(basename ⟨s⟩).data ++ "_test.cpp".data⟩
    rw [hcppl, replaceFirstL_some _ _ _ _ hF5l,
      show (['.', 'c', 'p', 'p'] : List Char).length = 4 from by decide,
      take_append_len, drop_append_add,
      show (['.', 'c', 'p', 'p'] : List Char).drop 4 = [] from by decide,
      List.append_nil]
  rw [hheader, hcompanion]

/-- C10 witness: for the discovered pair "codebase/example.h" /
"codebase/example.cpp" - a path with a directory separator, as
readCodebase produces - the two derived output paths coincide. -/
theorem spec_C10_witness :
    testOutPath "codebase/example.h" = testOutPath (companionCpp "codebase/example.h") :=
  spec_C10 "codebase/example.h" (by decide) (by decide) (by decide)

end UnitTestGenerator
